import Mathlib

/-!
# Verification of the NRT (near-real-time) indexing slice of tantivy

This file gives a shallow embedding in Lean 4 of the two subsystems covered by
the specification:

* the tiered segment-state manager (`src/src/indexer/segment_manager.rs`):
  three `SegmentRegister` tiers (uncommitted / soft-committed / committed)
  with the transitions `add_segment`, `soft_commit`, `commit`, `start_merge`,
  `end_merge`, `committed_segment_metas`, `remove_all_segments`;
* the tiered-storage directory overlay (`src/src/directory/cache_directory.rs`):
  a volatile store composed in front of an inner durable directory, with
  read-through fallback and explicit `persist`.

`SegmentRegister` itself (`segment_register.rs`) is not part of the provided
sources; it is modelled from the specification, §4.3 (see its doc comment).
Every other definition is translated directly from the Rust source.

Machine-level details that do not affect the verified properties are
abstracted: `SegmentId` is an opaque identifier (the source uses a 128-bit
UUID, only compared for equality), file paths are opaque names, and byte
buffers are lists of bytes.
-/

set_option autoImplicit false

namespace Tantivy

/-- Opaque 128-bit segment identifier; only equality is ever used. -/
structure SegmentId where
  uuid : Nat
deriving DecidableEq, Repr, Inhabited

/-- Metadata describing a segment: its id and its document count. -/
structure SegmentMeta where
  segment_id : SegmentId
  num_docs : Nat
deriving DecidableEq, Repr, Inhabited

/-- A runtime record pairing a `SegmentMeta` with a delete-cursor position
(the cursor is opaque to the segment manager; we model it as a `Nat`). -/
structure SegmentEntry where
  meta : SegmentMeta
  delete_cursor : Nat
deriving DecidableEq, Repr, Inhabited

/-- `SegmentEntry::segment_id` in the source delegates to the meta. -/
def SegmentEntry.segment_id (e : SegmentEntry) : SegmentId :=
  e.meta.segment_id

/-- `crate::error::TantivyError`, restricted to the variants the verified
slice produces. -/
inductive TantivyError where
  | invalidArgument (msg : String)
deriving DecidableEq, Repr

/-- Modelled from the spec: `SegmentRegister` (file `segment_register.rs` is
not among the provided sources; only its callers are). Spec §3/§4.3: "an
ordered mapping from SegmentId to SegmentEntry with insertion order preserved
for deterministic enumeration. Invariant: no two entries share a SegmentId";
`add_segment_entry` "inserts or replaces". -/
structure SegmentRegister where
  entries : List SegmentEntry
deriving DecidableEq, Repr, Inhabited

namespace SegmentRegister

/-- The empty register (`SegmentRegister::default()`). -/
def empty : SegmentRegister := ⟨[]⟩

/-- Modelled from the spec: `SegmentRegister::new(segment_metas, delete_cursor)`
initializes one entry per meta, each carrying the given delete-cursor
snapshot (spec §4.3 "a delete cursor snapshot used to initialize newly added
entries when reconstructed from on-disk metadata"). -/
def new (segment_metas : List SegmentMeta) (delete_cursor : Nat) : SegmentRegister :=
  ⟨segment_metas.map fun m => ⟨m, delete_cursor⟩⟩

/-- Membership test for a single id. -/
def contains (r : SegmentRegister) (id : SegmentId) : Bool :=
  r.entries.any fun e => e.segment_id == id

/-- Modelled from the spec: `contains_all(ids)` — "true iff every id is
present". -/
def contains_all (r : SegmentRegister) (ids : List SegmentId) : Bool :=
  ids.all fun id => r.contains id

/-- Modelled from the spec: `get(id)` — "retrieves the entry, or absent". -/
def get (r : SegmentRegister) (id : SegmentId) : Option SegmentEntry :=
  r.entries.find? fun e => e.segment_id == id

/-- Modelled from the spec: `add_segment_entry(entry)` — "inserts or
replaces; idempotent on identical ids", with insertion order preserved. -/
def add_segment_entry (r : SegmentRegister) (e : SegmentEntry) : SegmentRegister :=
  if r.contains e.segment_id then
    ⟨r.entries.map fun e0 => if e0.segment_id == e.segment_id then e else e0⟩
  else
    ⟨r.entries ++ [e]⟩

/-- Modelled from the spec: `remove_segment(id)` — "removes if present;
no-op otherwise". -/
def remove_segment (r : SegmentRegister) (id : SegmentId) : SegmentRegister :=
  ⟨r.entries.filter fun e => !(e.segment_id == id)⟩

/-- Modelled from the spec: `clear()` — "empties the register". -/
def clear : SegmentRegister := ⟨[]⟩

/-- Modelled from the spec: `segment_entries()` — enumeration in insertion
order. -/
def segment_entries (r : SegmentRegister) : List SegmentEntry :=
  r.entries

/-- Modelled from the spec: `segment_metas()` — enumeration in insertion
order. -/
def segment_metas (r : SegmentRegister) : List SegmentMeta :=
  r.entries.map fun e => e.meta

/-- Modelled from the spec: `segment_ids()` — enumeration in insertion
order. -/
def segment_ids (r : SegmentRegister) : List SegmentId :=
  r.entries.map fun e => e.segment_id

/-- Modelled from the spec: `get_mergeable_segments(in_merge)` — "returns all
SegmentMetas whose id is NOT in the in_merge set". -/
def get_mergeable_segments (r : SegmentRegister) (in_merge : List SegmentId) :
    List SegmentMeta :=
  (r.entries.filter fun e => !(in_merge.contains e.segment_id)).map fun e => e.meta

end SegmentRegister

/-- The triple of tier registers guarded by the manager's lock
(`SegmentRegisters`, segment_manager.rs lines 12–17). -/
structure SegmentRegisters where
  uncommitted : SegmentRegister
  soft_committed : SegmentRegister
  committed : SegmentRegister
deriving DecidableEq, Repr, Inhabited

/-- `SegmentsStatus` (segment_manager.rs lines 19–24). -/
inductive SegmentsStatus where
  | committed
  | softCommitted
  | uncommitted
deriving DecidableEq, Repr, Inhabited, Fintype

namespace SegmentRegisters

/-- `SegmentRegisters::segments_status` (lines 31–47): checks
uncommitted, then soft_committed, then committed; `None` when no single
register contains all the ids. -/
def segments_status (rs : SegmentRegisters) (segment_ids : List SegmentId) :
    Option SegmentsStatus :=
  if rs.uncommitted.contains_all segment_ids then
    some .uncommitted
  else if rs.soft_committed.contains_all segment_ids then
    some .softCommitted
  else if rs.committed.contains_all segment_ids then
    some .committed
  else
    none

/-- `SegmentRegisters::iter` (lines 49–51): yields the registers in the
order `[committed, soft_committed, uncommitted]`. -/
def iterRegisters (rs : SegmentRegisters) : List SegmentRegister :=
  [rs.committed, rs.soft_committed, rs.uncommitted]

end SegmentRegisters

/-- The register a `SegmentsStatus` classifies (the `match` of
`end_merge`, lines 233–237). -/
def tierOf (rs : SegmentRegisters) : SegmentsStatus → SegmentRegister
  | .uncommitted => rs.uncommitted
  | .softCommitted => rs.soft_committed
  | .committed => rs.committed

namespace SegmentManager

/-- `SegmentManager::from_segments` (lines 76–87): the metas populate the
committed register; the other two start empty. -/
def from_segments (segment_metas : List SegmentMeta) (delete_cursor : Nat) :
    SegmentRegisters :=
  { uncommitted := SegmentRegister.empty
    soft_committed := SegmentRegister.empty
    committed := SegmentRegister.new segment_metas delete_cursor }

/-- `SegmentManager::add_segment` (lines 209–212). -/
def add_segment (rs : SegmentRegisters) (segment_entry : SegmentEntry) :
    SegmentRegisters :=
  { rs with uncommitted := rs.uncommitted.add_segment_entry segment_entry }

/-- `SegmentManager::commit` (lines 162–170): clears all three registers and
adds every entry to the committed register. -/
def commit (_rs : SegmentRegisters) (segment_entries : List SegmentEntry) :
    SegmentRegisters :=
  { uncommitted := SegmentRegister.clear
    soft_committed := SegmentRegister.clear
    committed :=
      segment_entries.foldl (fun r e => r.add_segment_entry e) SegmentRegister.clear }

/-- `SegmentManager::soft_commit` (lines 172–182): clears all three registers
and adds the entries of the two lists (committed entries first) to the
soft-committed register. -/
def soft_commit (_rs : SegmentRegisters) (committed_segment_entries : List SegmentEntry)
    (soft_committed_segment_entries : List SegmentEntry) : SegmentRegisters :=
  { uncommitted := SegmentRegister.clear
    committed := SegmentRegister.clear
    soft_committed :=
      (committed_segment_entries ++ soft_committed_segment_entries).foldl
        (fun r e => r.add_segment_entry e) SegmentRegister.clear }

/-- `SegmentManager::remove_all_segments` (lines 155–160). -/
def remove_all_segments (_rs : SegmentRegisters) : SegmentRegisters :=
  { uncommitted := SegmentRegister.clear
    soft_committed := SegmentRegister.clear
    committed := SegmentRegister.clear }

/-- The error message of `start_merge` (lines 203–205). -/
def startMergeErrorMsg : String :=
  "Merge operation sent for segments that are not all uncommited, soft committed or commited."

/-- The loop body of `start_merge` (lines 190–202): scan the registers in
the order produced by `SegmentRegisters::iter`, return the entries of the
first register containing every id. -/
def startMergeLoop (registers : List SegmentRegister) (segment_ids : List SegmentId) :
    Except TantivyError (List SegmentEntry) :=
  match registers with
  | [] => .error (.invalidArgument startMergeErrorMsg)
  | register :: rest =>
    if register.contains_all segment_ids then
      .ok (segment_ids.filterMap fun id => register.get id)
    else
      startMergeLoop rest segment_ids

/-- `SegmentManager::start_merge` (lines 188–207). The method only takes the
readers lock, so the registers it returns are the registers it was given. -/
def start_merge (rs : SegmentRegisters) (segment_ids : List SegmentId) :
    SegmentRegisters × Except TantivyError (List SegmentEntry) :=
  (rs, startMergeLoop rs.iterRegisters segment_ids)

/-- The error message of `end_merge` (lines 226–230). -/
def endMergeErrorMsg : String :=
  "The segments that were merged could not be found in the SegmentManager. This is not necessarily a bug, and can happen after a rollback for instance."

/-- `SegmentManager::end_merge` (lines 216–243): classify the before-merge
ids, remove them from their register, insert the after-merge entry there,
and return the classification together with the updated registers. -/
def end_merge (rs : SegmentRegisters) (before_merge_segment_ids : List SegmentId)
    (after_merge_segment_entry : SegmentEntry) :
    Except TantivyError (SegmentsStatus × SegmentRegisters) :=
  match rs.segments_status before_merge_segment_ids with
  | none => .error (.invalidArgument endMergeErrorMsg)
  | some status =>
    let target : SegmentRegister := tierOf rs status
    let target :=
      before_merge_segment_ids.foldl (fun r id => r.remove_segment id) target
    let target := target.add_segment_entry after_merge_segment_entry
    let rs' : SegmentRegisters :=
      match status with
      | .uncommitted => { rs with uncommitted := target }
      | .softCommitted => { rs with soft_committed := target }
      | .committed => { rs with committed := target }
    .ok (status, rs')

/-- `SegmentManager::remove_empty_segments` (lines 141–153): snapshot the
committed entries, and remove from the committed register each one whose
doc count is zero. -/
def remove_empty_segments (rs : SegmentRegisters) : SegmentRegisters :=
  { rs with
    committed :=
      (rs.committed.segment_entries.filter fun e => e.meta.num_docs == 0).foldl
        (fun r e => r.remove_segment e.segment_id) rs.committed }

/-- `SegmentManager::committed_segment_metas` (lines 245–251): first
`remove_empty_segments`, then the committed metas followed by the
soft-committed metas. Returns the updated registers with the result. -/
def committed_segment_metas (rs : SegmentRegisters) :
    SegmentRegisters × List SegmentMeta :=
  let rs' := remove_empty_segments rs
  (rs', rs'.committed.segment_metas ++ rs'.soft_committed.segment_metas)

end SegmentManager

/-! ## The tiered-storage directory overlay (`cache_directory.rs`) -/

/-- Opaque file path (spec §3: "an opaque hierarchical name (leaf-only
semantics are sufficient)"). -/
abbrev Path := Nat

/-- A byte buffer. -/
abbrev Bytes := List Nat

/-- `crate::directory::error::OpenReadError`. -/
inductive OpenReadError where
  | fileDoesNotExist (path : Path)
  | ioError (code : Nat)
  | incompatibleIndex
deriving DecidableEq, Repr

/-- `crate::directory::error::OpenWriteError`. -/
inductive OpenWriteError where
  | fileAlreadyExists (path : Path)
  | ioError (code : Nat)
deriving DecidableEq, Repr

/-- Rust's `result.or_else(|_error| fallback)` as used throughout
`cache_directory.rs`: the closure ignores the error, so the fallback runs on
every error value. -/
def orElseAny {ε α : Type} (a : Except ε α) (fallback : Unit → Except ε α) :
    Except ε α :=
  match a with
  | .ok v => .ok v
  | .error _ => fallback ()

/-- Insert-or-replace on a path-keyed file map (spec §3 `VolatileFileMap`:
"mapping from FilePath to an owned byte buffer; supports atomic replace"). -/
def fileMapInsert (m : List (Path × Bytes)) (p : Path) (data : Bytes) :
    List (Path × Bytes) :=
  if m.any fun pd => pd.1 == p then
    m.map fun pd => if pd.1 == p then (p, data) else pd
  else
    m ++ [(p, data)]

/-- Modelled from the spec: `RamDirectory`, the volatile file store (its
source is not among the provided files). Spec §4.1: an in-memory map of
named byte blobs; all writes go here. -/
structure RamDirectory where
  files : List (Path × Bytes)
deriving DecidableEq, Repr, Inhabited

namespace RamDirectory

/-- Modelled from the spec: a volatile atomic write replaces the buffer
held for the path. -/
def atomic_write (d : RamDirectory) (p : Path) (data : Bytes) : RamDirectory :=
  ⟨fileMapInsert d.files p data⟩

/-- Modelled from the spec: a volatile open-write creates the file in the
in-memory map, failing with *already-exists* when the path is present
(spec §6: `open_write(path) → writer | already_exists | io_error`). -/
def open_write (d : RamDirectory) (p : Path) :
    RamDirectory × Except OpenWriteError Unit :=
  if d.files.any fun pd => pd.1 == p then
    (d, .error (.fileAlreadyExists p))
  else
    (⟨d.files ++ [(p, [])]⟩, .ok ())

/-- Modelled from the spec: `persist(into)` "enumerates every path currently
held, and for each path atomically writes the buffer into the target
directory" (spec §4.1). -/
def persist (d : RamDirectory) (target : List (Path × Bytes)) :
    List (Path × Bytes) :=
  d.files.foldl (fun t pd => fileMapInsert t pd.1 pd.2) target

end RamDirectory

/-- The state of a `CacheDirectory` for the write-path model: its volatile
store and the file map of the inner durable directory it wraps. -/
structure CacheState where
  ram : RamDirectory
  inner : List (Path × Bytes)
deriving DecidableEq, Repr

namespace CacheDirectory

/-- `CacheDirectory::get_file_handle` (lines 34–36), parametric in the
behaviour of the two stores: `ram_directory.get_file_handle(path).or_else(|_error|
inner.get_file_handle(path))`. File handles are opaque. -/
def get_file_handle (ram inner : Path → Except OpenReadError Nat) (p : Path) :
    Except OpenReadError Nat :=
  orElseAny (ram p) fun _ => inner p

/-- `CacheDirectory::open_read` (lines 38–40):
`ram_directory.open_read(path).or_else(|_error| inner.open_read(path))`. -/
def open_read (ram inner : Path → Except OpenReadError Bytes) (p : Path) :
    Except OpenReadError Bytes :=
  orElseAny (ram p) fun _ => inner p

/-- `CacheDirectory::exists` (lines 50–52):
`ram_directory.exists(path).or_else(|_error| inner.exists(path))`. -/
def exists_file (ram inner : Path → Except OpenReadError Bool) (p : Path) :
    Except OpenReadError Bool :=
  orElseAny (ram p) fun _ => inner p

/-- `CacheDirectory::atomic_read` (lines 54–56):
`ram_directory.atomic_read(path).or_else(|_error| inner.atomic_read(path))`. -/
def atomic_read (ram inner : Path → Except OpenReadError Bytes) (p : Path) :
    Except OpenReadError Bytes :=
  orElseAny (ram p) fun _ => inner p

/-- `CacheDirectory::open_write` (lines 42–44): delegates to the volatile
store only. -/
def open_write (s : CacheState) (p : Path) :
    CacheState × Except OpenWriteError Unit :=
  let (ram', res) := s.ram.open_write p
  ({ s with ram := ram' }, res)

/-- `CacheDirectory::atomic_write` (lines 58–60): delegates to the volatile
store only. -/
def atomic_write (s : CacheState) (p : Path) (data : Bytes) : CacheState :=
  { s with ram := s.ram.atomic_write p data }

/-- `CacheDirectory::persist` (lines 70–72): drains the volatile store into
the inner directory via the volatile store's `persist`. -/
def persist (s : CacheState) : CacheState :=
  { s with inner := s.ram.persist s.inner }

end CacheDirectory

/-! ## Specification-side definitions and the reachability machine -/

/-- The first register in a list containing every one of the given ids. -/
def firstTierContaining (registers : List SegmentRegister)
    (ids : List SegmentId) : Option SegmentRegister :=
  registers.find? fun r => r.contains_all ids

/-- The claim's description of `start_merge`, written from its words: search
the tiers in the order uncommitted, soft-committed, committed, and return
the entries of the first tier whose `contains_all(ids)` is true. -/
def claimStartMergeUncommittedFirst (rs : SegmentRegisters)
    (ids : List SegmentId) : Except TantivyError (List SegmentEntry) :=
  match firstTierContaining [rs.uncommitted, rs.soft_committed, rs.committed] ids with
  | some r => .ok (ids.filterMap fun id => r.get id)
  | none => .error (.invalidArgument SegmentManager.startMergeErrorMsg)

/-- The amended description of `start_merge`: the search order is the one of
`SegmentRegisters::iter` — committed, then soft-committed, then
uncommitted. -/
def specStartMergeCommittedFirst (rs : SegmentRegisters)
    (ids : List SegmentId) : Except TantivyError (List SegmentEntry) :=
  match firstTierContaining [rs.committed, rs.soft_committed, rs.uncommitted] ids with
  | some r => .ok (ids.filterMap fun id => r.get id)
  | none => .error (.invalidArgument SegmentManager.startMergeErrorMsg)

/-- One public mutating operation of the segment manager (the operations a
reachable state is built from; `from_segments` provides the initial state). -/
inductive ManagerOp where
  | addSegment (e : SegmentEntry)
  | softCommit (ce se : List SegmentEntry)
  | commitOp (l : List SegmentEntry)
  | endMergeOp (before : List SegmentId) (after : SegmentEntry)
  | committedMetasOp
  | removeAllOp
deriving DecidableEq, Repr

/-- The state transition of one operation. A failing `end_merge` leaves the
registers unchanged. -/
def applyOp (rs : SegmentRegisters) : ManagerOp → SegmentRegisters
  | .addSegment e => SegmentManager.add_segment rs e
  | .softCommit ce se => SegmentManager.soft_commit rs ce se
  | .commitOp l => SegmentManager.commit rs l
  | .endMergeOp before after =>
      match SegmentManager.end_merge rs before after with
      | .ok (_, rs') => rs'
      | .error _ => rs
  | .committedMetasOp => (SegmentManager.committed_segment_metas rs).1
  | .removeAllOp => SegmentManager.remove_all_segments rs

/-- Run a sequence of operations. -/
def runOps (rs : SegmentRegisters) (ops : List ManagerOp) : SegmentRegisters :=
  ops.foldl applyOp rs

/-- The three tiers are pairwise disjoint by `SegmentId`. -/
def tiersDisjoint (rs : SegmentRegisters) : Bool :=
  (rs.uncommitted.segment_ids.all fun i =>
    !(rs.soft_committed.contains i) && !(rs.committed.contains i)) &&
  (rs.soft_committed.segment_ids.all fun i => !(rs.committed.contains i))

/-- Freshness side condition of one operation: the entry an `add_segment` or
a successful `end_merge` inserts must not carry an id already present in a
tier other than the one it lands in. -/
def opSafe (rs : SegmentRegisters) : ManagerOp → Bool
  | .addSegment e =>
      !(rs.soft_committed.contains e.segment_id) &&
      !(rs.committed.contains e.segment_id)
  | .endMergeOp before after =>
      match rs.segments_status before with
      | some .uncommitted =>
          !(rs.soft_committed.contains after.segment_id) &&
          !(rs.committed.contains after.segment_id)
      | some .softCommitted =>
          !(rs.uncommitted.contains after.segment_id) &&
          !(rs.committed.contains after.segment_id)
      | some .committed =>
          !(rs.uncommitted.contains after.segment_id) &&
          !(rs.soft_committed.contains after.segment_id)
      | none => true
  | _ => true

/-- Every operation of the sequence satisfies its freshness side condition
in the state it runs in. -/
def safeOps : SegmentRegisters → List ManagerOp → Bool
  | _, [] => true
  | rs, op :: ops => opSafe rs op && safeOps (applyOp rs op) ops

/-- Pairwise tier disjointness stated propositionally (proved equivalent to
the executable `tiersDisjoint`). -/
def DisjointP (rs : SegmentRegisters) : Prop :=
  (∀ i, rs.uncommitted.contains i = true →
    rs.soft_committed.contains i = false ∧ rs.committed.contains i = false) ∧
  (∀ i, rs.soft_committed.contains i = true → rs.committed.contains i = false)

/-! ## Helper lemmas on the register operations -/

namespace SegmentRegister

theorem contains_eq_true_iff {r : SegmentRegister} {i : SegmentId} :
    r.contains i = true ↔ ∃ e ∈ r.entries, e.segment_id = i := by
  simp [contains, List.any_eq_true]

theorem contains_clear (i : SegmentId) : SegmentRegister.clear.contains i = false :=
  rfl

theorem contains_add_iff {r : SegmentRegister} {e : SegmentEntry} {i : SegmentId} :
    (r.add_segment_entry e).contains i = true ↔
      (r.contains i = true ∨ i = e.segment_id) := by
  unfold add_segment_entry
  split
  next h =>
    simp only [contains_eq_true_iff, List.mem_map]
    constructor
    · rintro ⟨e', ⟨e0, he0, rfl⟩, hsid⟩
      by_cases hc : e0.segment_id = e.segment_id
      · simp [hc] at hsid
        exact Or.inr hsid.symm
      · simp [hc] at hsid
        exact Or.inl ⟨e0, he0, hsid⟩
    · rintro (⟨e0, he0, rfl⟩ | rfl)
      · by_cases hc : e0.segment_id = e.segment_id
        · exact ⟨e, ⟨e0, he0, by simp [hc]⟩, hc.symm ▸ rfl⟩
        · exact ⟨e0, ⟨e0, he0, by simp [hc]⟩, rfl⟩
      · rcases contains_eq_true_iff.mp h with ⟨e0, he0, hsid⟩
        exact ⟨e, ⟨e0, he0, by simp [hsid]⟩, rfl⟩
  next h =>
    simp only [contains_eq_true_iff, List.mem_append, List.mem_singleton]
    constructor
    · rintro ⟨e', he' | rfl, hsid⟩
      · exact Or.inl ⟨e', he', hsid⟩
      · exact Or.inr hsid.symm
    · rintro (⟨e0, he0, hsid⟩ | rfl)
      · exact ⟨e0, Or.inl he0, hsid⟩
      · exact ⟨e, Or.inr rfl, rfl⟩

theorem mem_add_self (r : SegmentRegister) (e : SegmentEntry) :
    e ∈ (r.add_segment_entry e).entries := by
  unfold add_segment_entry
  split
  next h =>
    rcases contains_eq_true_iff.mp h with ⟨e0, he0, hsid⟩
    exact List.mem_map.mpr ⟨e0, he0, by simp [hsid]⟩
  next h => simp

theorem entries_remove (r : SegmentRegister) (id : SegmentId) :
    (r.remove_segment id).entries = r.entries.filter fun e => !(e.segment_id == id) :=
  rfl

theorem entries_foldl_remove (ids : List SegmentId) (r : SegmentRegister) :
    (ids.foldl (fun r id => r.remove_segment id) r).entries =
      r.entries.filter fun e => !(ids.contains e.segment_id) := by
  induction ids generalizing r with
  | nil => simp
  | cons i ids ih =>
    rw [List.foldl_cons, ih, entries_remove, List.filter_filter]
    apply List.filter_congr
    intro e _
    simp only [List.contains_cons, Bool.not_or]
    exact Bool.and_comm _ _

theorem contains_foldl_remove_of_mem {ids : List SegmentId} {r : SegmentRegister}
    {i : SegmentId} (h : i ∈ ids) :
    (ids.foldl (fun r id => r.remove_segment id) r).contains i = false := by
  rw [← Bool.not_eq_true]
  intro hc
  rcases contains_eq_true_iff.mp hc with ⟨e, he, hsid⟩
  rw [entries_foldl_remove] at he
  rcases List.mem_filter.mp he with ⟨_, hnot⟩
  rw [hsid] at hnot
  simp at hnot
  exact hnot h

theorem contains_foldl_remove_mono {ids : List SegmentId} {r : SegmentRegister}
    {i : SegmentId}
    (h : (ids.foldl (fun r id => r.remove_segment id) r).contains i = true) :
    r.contains i = true := by
  rcases contains_eq_true_iff.mp h with ⟨e, he, hsid⟩
  rw [entries_foldl_remove] at he
  exact contains_eq_true_iff.mpr ⟨e, (List.mem_filter.mp he).1, hsid⟩

theorem foldl_add_entries_of_nodup :
    ∀ (l acc : List SegmentEntry),
      ((acc ++ l).map SegmentEntry.segment_id).Nodup →
      (l.foldl (fun r e => r.add_segment_entry e) (SegmentRegister.mk acc)).entries =
        acc ++ l
  | [], acc, _ => by simp
  | e :: l, acc, h => by
    have h' : (((acc ++ [e]) ++ l).map SegmentEntry.segment_id).Nodup := by
      rw [← List.append_cons]
      exact h
    have hnotin : e.segment_id ∉ acc.map SegmentEntry.segment_id := by
      intro hin
      have hmap : ((acc ++ e :: l).map SegmentEntry.segment_id) =
          acc.map SegmentEntry.segment_id ++
            e.segment_id :: l.map SegmentEntry.segment_id := by
        simp
      rw [hmap, List.nodup_append] at h
      exact h.2.2 hin (List.mem_cons_self _ _)
    have hcon : (SegmentRegister.mk acc).contains e.segment_id = false := by
      rw [← Bool.not_eq_true]
      intro hc
      rcases contains_eq_true_iff.mp hc with ⟨e0, he0, hsid⟩
      exact hnotin (List.mem_map.mpr ⟨e0, he0, hsid⟩)
    have hadd : (SegmentRegister.mk acc).add_segment_entry e =
        ⟨acc ++ [e]⟩ := by
      unfold add_segment_entry
      rw [hcon]
      simp
    rw [List.foldl_cons, hadd, foldl_add_entries_of_nodup l (acc ++ [e]) h']
    simp

theorem contains_iff_mem_ids {r : SegmentRegister} {i : SegmentId} :
    r.contains i = true ↔ i ∈ r.segment_ids := by
  simp [contains_eq_true_iff, segment_ids]

end SegmentRegister

theorem foldl_remove_by_entry (zs : List SegmentEntry) (r : SegmentRegister) :
    zs.foldl (fun r e => r.remove_segment e.segment_id) r =
      (zs.map SegmentEntry.segment_id).foldl (fun r id => r.remove_segment id) r := by
  induction zs generalizing r with
  | nil => rfl
  | cons z zs ih => simp [List.foldl_cons, ih]

theorem contains_merge_target {reg : SegmentRegister} {ids : List SegmentId}
    {after : SegmentEntry} {i : SegmentId}
    (h : ((ids.foldl (fun r id => r.remove_segment id) reg).add_segment_entry
        after).contains i = true) :
    reg.contains i = true ∨ i = after.segment_id := by
  rcases SegmentRegister.contains_add_iff.mp h with hx | hx
  · exact Or.inl (SegmentRegister.contains_foldl_remove_mono hx)
  · exact Or.inr hx

theorem contains_gc_mono {rs : SegmentRegisters} {i : SegmentId}
    (h : (SegmentManager.remove_empty_segments rs).committed.contains i = true) :
    rs.committed.contains i = true := by
  have h' : ((rs.committed.segment_entries.filter fun e => e.meta.num_docs == 0).foldl
      (fun r e => r.remove_segment e.segment_id) rs.committed).contains i = true := h
  rw [foldl_remove_by_entry] at h'
  exact SegmentRegister.contains_foldl_remove_mono h'

theorem tiersDisjoint_iff {rs : SegmentRegisters} :
    tiersDisjoint rs = true ↔ DisjointP rs := by
  unfold tiersDisjoint DisjointP
  rw [Bool.and_eq_true, List.all_eq_true, List.all_eq_true]
  constructor
  · rintro ⟨h1, h2⟩
    constructor
    · intro i hi
      have := h1 i (SegmentRegister.contains_iff_mem_ids.mp hi)
      simpa using this
    · intro i hi
      have := h2 i (SegmentRegister.contains_iff_mem_ids.mp hi)
      simpa using this
  · rintro ⟨h1, h2⟩
    constructor
    · intro i hi
      have := h1 i (SegmentRegister.contains_iff_mem_ids.mpr hi)
      simp [this.1, this.2]
    · intro i hi
      have := h2 i (SegmentRegister.contains_iff_mem_ids.mpr hi)
      simp [this]

theorem startMergeLoop_eq_find (registers : List SegmentRegister)
    (ids : List SegmentId) :
    SegmentManager.startMergeLoop registers ids =
      match firstTierContaining registers ids with
      | some r => .ok (ids.filterMap fun id => r.get id)
      | none => .error (.invalidArgument SegmentManager.startMergeErrorMsg) := by
  induction registers with
  | nil => rfl
  | cons r rest ih =>
    unfold SegmentManager.startMergeLoop firstTierContaining
    unfold firstTierContaining at ih
    cases h : r.contains_all ids with
    | true => simp [List.find?_cons, h]
    | false => simp [List.find?_cons, h, ih]

theorem opSafe_preserves {rs : SegmentRegisters} {op : ManagerOp}
    (hd : DisjointP rs) (hs : opSafe rs op = true) : DisjointP (applyOp rs op) := by
  obtain ⟨hd1, hd2⟩ := hd
  cases op with
  | addSegment e =>
    rw [opSafe, Bool.and_eq_true, Bool.not_eq_true', Bool.not_eq_true'] at hs
    constructor
    · intro i hi
      rcases SegmentRegister.contains_add_iff.mp hi with hx | rfl
      · exact hd1 i hx
      · exact ⟨hs.1, hs.2⟩
    · exact hd2
  | softCommit ce se =>
    constructor
    · intro i hi
      exact Bool.noConfusion hi
    · intro i _
      rfl
  | commitOp l =>
    constructor
    · intro i hi
      exact Bool.noConfusion hi
    · intro i hi
      exact Bool.noConfusion hi
  | committedMetasOp =>
    constructor
    · intro i hi
      have h' := hd1 i hi
      refine ⟨h'.1, ?_⟩
      rw [← Bool.not_eq_true]
      intro hc
      have h2 := h'.2
      rw [contains_gc_mono hc] at h2
      exact Bool.noConfusion h2
    · intro i hi
      rw [← Bool.not_eq_true]
      intro hc
      have h2 := hd2 i hi
      rw [contains_gc_mono hc] at h2
      exact Bool.noConfusion h2
  | removeAllOp =>
    constructor
    · intro i hi
      exact Bool.noConfusion hi
    · intro i hi
      exact Bool.noConfusion hi
  | endMergeOp before after =>
    cases hst : rs.segments_status before with
    | none =>
      have heq : SegmentManager.end_merge rs before after =
          .error (.invalidArgument SegmentManager.endMergeErrorMsg) := by
        unfold SegmentManager.end_merge
        rw [hst]
      show DisjointP (applyOp rs (.endMergeOp before after))
      rw [applyOp, heq]
      exact ⟨hd1, hd2⟩
    | some st =>
      rw [opSafe, hst] at hs
      cases st with
      | uncommitted =>
        rw [Bool.and_eq_true, Bool.not_eq_true', Bool.not_eq_true'] at hs
        have heq : applyOp rs (.endMergeOp before after) =
            { rs with uncommitted :=
                (before.foldl (fun r id => r.remove_segment id)
                  rs.uncommitted).add_segment_entry after } := by
          rw [applyOp]
          unfold SegmentManager.end_merge
          rw [hst]
          rfl
        rw [heq]
        constructor
        · intro i hi
          rcases contains_merge_target hi with hx | rfl
          · exact hd1 i hx
          · exact ⟨hs.1, hs.2⟩
        · exact hd2
      | softCommitted =>
        rw [Bool.and_eq_true, Bool.not_eq_true', Bool.not_eq_true'] at hs
        have heq : applyOp rs (.endMergeOp before after) =
            { rs with soft_committed :=
                (before.foldl (fun r id => r.remove_segment id)
                  rs.soft_committed).add_segment_entry after } := by
          rw [applyOp]
          unfold SegmentManager.end_merge
          rw [hst]
          rfl
        rw [heq]
        constructor
        · intro i hi
          refine ⟨?_, (hd1 i hi).2⟩
          rw [← Bool.not_eq_true]
          intro hc
          rcases contains_merge_target hc with hx | rfl
          · have h2 := (hd1 i hi).1
            rw [hx] at h2
            exact Bool.noConfusion h2
          · rw [hs.1] at hi
            exact Bool.noConfusion hi
        · intro i hi
          rcases contains_merge_target hi with hx | rfl
          · exact hd2 i hx
          · exact hs.2
      | committed =>
        rw [Bool.and_eq_true, Bool.not_eq_true', Bool.not_eq_true'] at hs
        have heq : applyOp rs (.endMergeOp before after) =
            { rs with committed :=
                (before.foldl (fun r id => r.remove_segment id)
                  rs.committed).add_segment_entry after } := by
          rw [applyOp]
          unfold SegmentManager.end_merge
          rw [hst]
          rfl
        rw [heq]
        constructor
        · intro i hi
          refine ⟨(hd1 i hi).1, ?_⟩
          rw [← Bool.not_eq_true]
          intro hc
          rcases contains_merge_target hc with hx | rfl
          · have h2 := (hd1 i hi).2
            rw [hx] at h2
            exact Bool.noConfusion h2
          · rw [hs.1] at hi
            exact Bool.noConfusion hi
        · intro i hi
          rw [← Bool.not_eq_true]
          intro hc
          rcases contains_merge_target hc with hx | rfl
          · have h2 := hd2 i hi
            rw [hx] at h2
            exact Bool.noConfusion h2
          · rw [hs.2] at hi
            exact Bool.noConfusion hi

theorem safeOps_disjoint {rs : SegmentRegisters} {ops : List ManagerOp}
    (hd : DisjointP rs) (hs : safeOps rs ops = true) : DisjointP (runOps rs ops) := by
  induction ops generalizing rs with
  | nil => exact hd
  | cons op ops ih =>
    rw [safeOps, Bool.and_eq_true] at hs
    exact ih (opSafe_preserves hd hs.1) hs.2

/-! ## Claim theorems -/

/-- **C1 (amended)**: for every call `start_merge(ids)`, the manager searches
the tiers in the fixed order committed, then soft-committed, then
uncommitted (the order of `SegmentRegisters::iter`), and returns the segment
entries from the first tier whose `contains_all(ids)` is true. -/
theorem start_merge_searches_committed_first (rs : SegmentRegisters)
    (ids : List SegmentId) :
    (SegmentManager.start_merge rs ids).2 = specStartMergeCommittedFirst rs ids := by
  show SegmentManager.startMergeLoop rs.iterRegisters ids = _
  rw [startMergeLoop_eq_find]
  rfl

/-- **C1 counterexample**: the claimed search order (uncommitted first) does
not describe `start_merge`. In the register state where segment id 0 is
present both in the uncommitted tier (entry with doc count 1) and in the
committed tier (entry with doc count 2), the claim predicts the uncommitted
entry, but `start_merge` returns the committed one, because
`SegmentRegisters::iter` yields the committed register first. -/
theorem start_merge_search_order_counterexample :
    claimStartMergeUncommittedFirst
        ⟨⟨[⟨⟨⟨0⟩, 1⟩, 0⟩]⟩, ⟨[]⟩, ⟨[⟨⟨⟨0⟩, 2⟩, 0⟩]⟩⟩ [⟨0⟩] =
      .ok [⟨⟨⟨0⟩, 1⟩, 0⟩] ∧
    (SegmentManager.start_merge
        ⟨⟨[⟨⟨⟨0⟩, 1⟩, 0⟩]⟩, ⟨[]⟩, ⟨[⟨⟨⟨0⟩, 2⟩, 0⟩]⟩⟩ [⟨0⟩]).2 =
      .ok [⟨⟨⟨0⟩, 2⟩, 0⟩] ∧
    (⟨⟨⟨0⟩, 1⟩, 0⟩ : SegmentEntry) ≠ ⟨⟨⟨0⟩, 2⟩, 0⟩ :=
  ⟨rfl, rfl, by decide⟩

/-- **C2 (amended)**: each read-family operation of the tiered directory
(`open_read`, `atomic_read`, `get_file_handle`) attempts the volatile store
first; a successful volatile answer is returned as is, and on ANY volatile
error (not only not-found — the closures are `or_else(|_error| ...)`) the
operation falls back to the inner directory. -/
theorem cache_read_fallback_any_error
    (ramB innerB : Path → Except OpenReadError Bytes)
    (ramH innerH : Path → Except OpenReadError Nat) (p : Path) :
    (∀ v, ramB p = .ok v → CacheDirectory.open_read ramB innerB p = .ok v) ∧
    (∀ e, ramB p = .error e → CacheDirectory.open_read ramB innerB p = innerB p) ∧
    (∀ v, ramB p = .ok v → CacheDirectory.atomic_read ramB innerB p = .ok v) ∧
    (∀ e, ramB p = .error e → CacheDirectory.atomic_read ramB innerB p = innerB p) ∧
    (∀ v, ramH p = .ok v → CacheDirectory.get_file_handle ramH innerH p = .ok v) ∧
    (∀ e, ramH p = .error e → CacheDirectory.get_file_handle ramH innerH p = innerH p) := by
  refine ⟨?_, ?_, ?_, ?_, ?_, ?_⟩ <;>
    · intro x hx
      simp [CacheDirectory.open_read, CacheDirectory.atomic_read,
        CacheDirectory.get_file_handle, orElseAny, hx]

/-- **C2 witness**: at path 0, with a volatile store failing with an i/o
error and an inner directory holding `[9]`, `open_read` returns the inner
result. -/
theorem cache_read_fallback_any_error_witness :
    CacheDirectory.open_read (fun _ => Except.error (OpenReadError.ioError 3))
        (fun _ => Except.ok [9]) 0 = Except.ok [9] :=
  (cache_read_fallback_any_error (fun _ => Except.error (OpenReadError.ioError 3))
    (fun _ => Except.ok [9]) (fun _ => Except.ok 0) (fun _ => Except.ok 0) 0).2.1
    (OpenReadError.ioError 3) rfl

/-- **C2 counterexample**: the claim says a volatile error other than
not-found is surfaced immediately without consulting the inner directory.
But when the volatile `atomic_read` fails with `ioError 7` and the inner
directory holds `[1, 2]`, the tiered `atomic_read` returns `ok [1, 2]`
instead of surfacing the i/o error: the fallback runs on every error. -/
theorem cache_read_surfaces_other_errors_counterexample :
    (fun _ => Except.error (OpenReadError.ioError 7) :
        Path → Except OpenReadError Bytes) 0 =
      Except.error (OpenReadError.ioError 7) ∧
    CacheDirectory.atomic_read (fun _ => Except.error (OpenReadError.ioError 7))
        (fun _ => Except.ok [1, 2]) 0 = Except.ok [1, 2] ∧
    CacheDirectory.atomic_read (fun _ => Except.error (OpenReadError.ioError 7))
        (fun _ => Except.ok [1, 2]) 0 ≠ Except.error (OpenReadError.ioError 7) :=
  ⟨rfl, rfl, fun h => Except.noConfusion h⟩

/-- **C8**: whenever no single tier contains all the requested ids (mixed
across tiers or partly absent — equivalently, `contains_all` fails on each
of the three registers), `start_merge` returns the invalid-argument error;
and `start_merge` never mutates the registers, whether it succeeds or
fails. -/
theorem start_merge_rejects_mixed (rs : SegmentRegisters) (ids : List SegmentId)
    (h : rs.iterRegisters.all (fun r => !(r.contains_all ids)) = true) :
    SegmentManager.start_merge rs ids =
      (rs, .error (.invalidArgument SegmentManager.startMergeErrorMsg)) ∧
    ∀ (rs2 : SegmentRegisters) (ids2 : List SegmentId),
      (SegmentManager.start_merge rs2 ids2).1 = rs2 := by
  constructor
  · simp only [SegmentRegisters.iterRegisters, List.all_cons, List.all_nil,
      Bool.and_eq_true, Bool.not_eq_true'] at h
    obtain ⟨h1, h2, h3, -⟩ := h
    simp [SegmentManager.start_merge, SegmentRegisters.iterRegisters,
      SegmentManager.startMergeLoop, h1, h2, h3]
  · intro rs2 ids2
    rfl

/-- **C8 witness** (spec Scenario E): segment 0 committed, segment 1
uncommitted; `start_merge([0, 1])` fails with invalid-argument and the
registers are unchanged. -/
theorem start_merge_rejects_mixed_witness :
    SegmentManager.start_merge
        ⟨⟨[⟨⟨⟨1⟩, 1⟩, 0⟩]⟩, ⟨[]⟩, ⟨[⟨⟨⟨0⟩, 1⟩, 0⟩]⟩⟩ [⟨0⟩, ⟨1⟩] =
      (⟨⟨[⟨⟨⟨1⟩, 1⟩, 0⟩]⟩, ⟨[]⟩, ⟨[⟨⟨⟨0⟩, 1⟩, 0⟩]⟩⟩,
        .error (.invalidArgument SegmentManager.startMergeErrorMsg)) :=
  (start_merge_rejects_mixed _ _ (by decide)).1

/-- **C9**: the write-family operations of the tiered directory affect only
the volatile store — for every state, path and content, `atomic_write` and
`open_write` leave the inner directory untouched — and the inner directory
is written only by the explicit `persist`, which drains the volatile store
into it (and keeps the volatile copies). -/
theorem write_family_targets_volatile_only (s : CacheState) (p : Path)
    (data : Bytes) :
    (CacheDirectory.atomic_write s p data).inner = s.inner ∧
    ((CacheDirectory.open_write s p).1).inner = s.inner ∧
    (CacheDirectory.persist s).inner = s.ram.persist s.inner ∧
    (CacheDirectory.persist s).ram = s.ram :=
  ⟨rfl, rfl, rfl, rfl⟩

/-- **C10**: whenever the volatile store's `exists` returns `Ok(b)`, the
tiered directory's `exists` returns that same answer (so the inner directory
cannot override an `Ok(false)`), and the inner directory's answer is used
exactly when the volatile call errors. -/
theorem exists_volatile_answer_wins
    (ram inner : Path → Except OpenReadError Bool) (p : Path) :
    (∀ b, ram p = .ok b → CacheDirectory.exists_file ram inner p = .ok b) ∧
    (∀ e, ram p = .error e → CacheDirectory.exists_file ram inner p = inner p) := by
  constructor <;>
    · intro x hx
      simp [CacheDirectory.exists_file, orElseAny, hx]

/-- **C10 witness**: a path absent from the volatile store (`Ok(false)`) but
present in the inner store (`Ok(true)`) is reported as non-existent by the
tiered directory. -/
theorem exists_volatile_answer_wins_witness :
    CacheDirectory.exists_file (fun _ => Except.ok false)
        (fun _ => Except.ok true) 0 = Except.ok false :=
  (exists_volatile_answer_wins (fun _ => Except.ok false)
    (fun _ => Except.ok true) 0).1 false rfl

/-- **C3 (amended)**: after `soft_commit(committed_entries,
soft_committed_entries)`, the uncommitted and committed tiers are empty and
the soft-committed tier equals the concatenation of the two input lists
(committed entries first), provided the combined inputs carry pairwise
distinct segment ids (the register replaces on duplicate ids, so a
duplicated id collapses to its last entry). -/
theorem soft_commit_shape (rs : SegmentRegisters) (ce se : List SegmentEntry)
    (h : ((ce ++ se).map SegmentEntry.segment_id).Nodup) :
    (SegmentManager.soft_commit rs ce se).uncommitted.entries = [] ∧
    (SegmentManager.soft_commit rs ce se).committed.entries = [] ∧
    (SegmentManager.soft_commit rs ce se).soft_committed.entries = ce ++ se := by
  refine ⟨rfl, rfl, ?_⟩
  show ((ce ++ se).foldl (fun r e => r.add_segment_entry e)
      SegmentRegister.clear).entries = ce ++ se
  exact SegmentRegister.foldl_add_entries_of_nodup (ce ++ se) [] (by simpa using h)

/-- **C3 witness**: soft-committing the committed-tier entry for segment 0
and the soft-committed-tier entry for segment 1 leaves their concatenation
in the soft-committed tier. -/
theorem soft_commit_shape_witness :
    (SegmentManager.soft_commit ⟨⟨[]⟩, ⟨[]⟩, ⟨[]⟩⟩ [⟨⟨⟨0⟩, 1⟩, 0⟩]
        [⟨⟨⟨1⟩, 2⟩, 0⟩]).uncommitted.entries = [] ∧
    (SegmentManager.soft_commit ⟨⟨[]⟩, ⟨[]⟩, ⟨[]⟩⟩ [⟨⟨⟨0⟩, 1⟩, 0⟩]
        [⟨⟨⟨1⟩, 2⟩, 0⟩]).committed.entries = [] ∧
    (SegmentManager.soft_commit ⟨⟨[]⟩, ⟨[]⟩, ⟨[]⟩⟩ [⟨⟨⟨0⟩, 1⟩, 0⟩]
        [⟨⟨⟨1⟩, 2⟩, 0⟩]).soft_committed.entries =
      [⟨⟨⟨0⟩, 1⟩, 0⟩] ++ [⟨⟨⟨1⟩, 2⟩, 0⟩] :=
  soft_commit_shape ⟨⟨[]⟩, ⟨[]⟩, ⟨[]⟩⟩ [⟨⟨⟨0⟩, 1⟩, 0⟩] [⟨⟨⟨1⟩, 2⟩, 0⟩] (by decide)

/-- **C3 counterexample**: when the two input lists share segment id 0, the
soft-committed tier does not equal their concatenation — the register
replaces on duplicate ids, so only one entry for id 0 remains. -/
theorem soft_commit_duplicate_counterexample :
    (SegmentManager.soft_commit ⟨⟨[]⟩, ⟨[]⟩, ⟨[]⟩⟩ [⟨⟨⟨0⟩, 1⟩, 0⟩]
        [⟨⟨⟨0⟩, 2⟩, 0⟩]).soft_committed.entries ≠
      [⟨⟨⟨0⟩, 1⟩, 0⟩] ++ [⟨⟨⟨0⟩, 2⟩, 0⟩] := by decide

/-- **C4 (amended)**: after `commit(L)`, the uncommitted and soft-committed
tiers are empty and the committed tier holds exactly the entries of `L`,
provided the entries of `L` carry pairwise distinct segment ids (the
register replaces on duplicate ids). -/
theorem commit_shape (rs : SegmentRegisters) (l : List SegmentEntry)
    (h : (l.map SegmentEntry.segment_id).Nodup) :
    (SegmentManager.commit rs l).uncommitted.entries = [] ∧
    (SegmentManager.commit rs l).soft_committed.entries = [] ∧
    (SegmentManager.commit rs l).committed.entries = l := by
  refine ⟨rfl, rfl, ?_⟩
  show (l.foldl (fun r e => r.add_segment_entry e)
      SegmentRegister.clear).entries = l
  exact SegmentRegister.foldl_add_entries_of_nodup l [] (by simpa using h)

/-- **C4 witness**: committing two entries with distinct segment ids leaves
exactly those two entries in the committed tier. -/
theorem commit_shape_witness :
    (SegmentManager.commit ⟨⟨[⟨⟨⟨2⟩, 7⟩, 0⟩]⟩, ⟨[]⟩, ⟨[]⟩⟩
        [⟨⟨⟨0⟩, 1⟩, 0⟩, ⟨⟨⟨1⟩, 2⟩, 0⟩]).uncommitted.entries = [] ∧
    (SegmentManager.commit ⟨⟨[⟨⟨⟨2⟩, 7⟩, 0⟩]⟩, ⟨[]⟩, ⟨[]⟩⟩
        [⟨⟨⟨0⟩, 1⟩, 0⟩, ⟨⟨⟨1⟩, 2⟩, 0⟩]).soft_committed.entries = [] ∧
    (SegmentManager.commit ⟨⟨[⟨⟨⟨2⟩, 7⟩, 0⟩]⟩, ⟨[]⟩, ⟨[]⟩⟩
        [⟨⟨⟨0⟩, 1⟩, 0⟩, ⟨⟨⟨1⟩, 2⟩, 0⟩]).committed.entries =
      [⟨⟨⟨0⟩, 1⟩, 0⟩, ⟨⟨⟨1⟩, 2⟩, 0⟩] :=
  commit_shape ⟨⟨[⟨⟨⟨2⟩, 7⟩, 0⟩]⟩, ⟨[]⟩, ⟨[]⟩⟩
    [⟨⟨⟨0⟩, 1⟩, 0⟩, ⟨⟨⟨1⟩, 2⟩, 0⟩] (by decide)

/-- **C4 counterexample**: committing two entries that share segment id 0
does not leave both in the committed tier — the register replaces on
duplicate ids. -/
theorem commit_duplicate_counterexample :
    (SegmentManager.commit ⟨⟨[]⟩, ⟨[]⟩, ⟨[]⟩⟩
        [⟨⟨⟨0⟩, 1⟩, 0⟩, ⟨⟨⟨0⟩, 2⟩, 0⟩]).committed.entries ≠
      [⟨⟨⟨0⟩, 1⟩, 0⟩, ⟨⟨⟨0⟩, 2⟩, 0⟩] := by decide

/-- **C6 (amended)**: the three tiers stay pairwise disjoint by SegmentId
along every operation sequence whose `add_segment` and `end_merge` calls
insert an entry whose id is absent from the tiers other than the one it
lands in (`safeOps`); without that freshness condition the code does not
enforce disjointness (see the counterexample). -/
theorem tier_disjointness_safe_sequences (metas : List SegmentMeta)
    (cursor : Nat) (ops : List ManagerOp)
    (hs : safeOps (SegmentManager.from_segments metas cursor) ops = true) :
    tiersDisjoint (runOps (SegmentManager.from_segments metas cursor) ops) = true := by
  have hd : DisjointP (SegmentManager.from_segments metas cursor) := by
    constructor
    · intro i hi
      exact Bool.noConfusion hi
    · intro i hi
      exact Bool.noConfusion hi
  exact tiersDisjoint_iff.mpr (safeOps_disjoint hd hs)

/-- **C6 witness**: starting from a manager holding committed segment 0,
adding a fresh uncommitted segment 1 satisfies the freshness condition and
the resulting state is disjoint. -/
theorem tier_disjointness_safe_sequences_witness :
    safeOps (SegmentManager.from_segments [⟨⟨0⟩, 2⟩] 0)
        [ManagerOp.addSegment ⟨⟨⟨1⟩, 1⟩, 0⟩] = true ∧
    tiersDisjoint (runOps (SegmentManager.from_segments [⟨⟨0⟩, 2⟩] 0)
        [ManagerOp.addSegment ⟨⟨⟨1⟩, 1⟩, 0⟩]) = true :=
  ⟨by decide, tier_disjointness_safe_sequences [⟨⟨0⟩, 2⟩] 0
    [ManagerOp.addSegment ⟨⟨⟨1⟩, 1⟩, 0⟩] (by decide)⟩

/-- **C6 counterexample**: the claim quantifies over ALL operation
sequences, but `add_segment` inserts into the uncommitted tier without any
cross-tier check: starting from a manager holding committed segment 0,
`add_segment` of an entry reusing id 0 yields a state where id 0 inhabits
both the uncommitted and the committed tier. -/
theorem tier_disjointness_counterexample :
    tiersDisjoint (runOps (SegmentManager.from_segments [⟨⟨0⟩, 2⟩] 0)
      [ManagerOp.addSegment ⟨⟨⟨0⟩, 1⟩, 0⟩]) = false := by decide

/-- **C7**: `committed_segment_metas()` first removes every zero-doc entry
from the committed tier (afterwards none remains there), then returns the
committed metas followed by the soft-committed metas; the soft-committed
and uncommitted tiers — zero-doc entries included — are untouched. -/
theorem committed_segment_metas_gc (rs : SegmentRegisters) :
    ((SegmentManager.committed_segment_metas rs).1.committed.entries.filter
        fun e => e.meta.num_docs == 0) = [] ∧
    (SegmentManager.committed_segment_metas rs).2 =
      (SegmentManager.committed_segment_metas rs).1.committed.segment_metas ++
        (SegmentManager.committed_segment_metas rs).1.soft_committed.segment_metas ∧
    (SegmentManager.committed_segment_metas rs).1.soft_committed =
      rs.soft_committed ∧
    (SegmentManager.committed_segment_metas rs).1.uncommitted = rs.uncommitted := by
  refine ⟨?_, rfl, rfl, rfl⟩
  have hentries : (SegmentManager.committed_segment_metas rs).1.committed.entries =
      rs.committed.entries.filter fun e =>
        !(((rs.committed.entries.filter fun e => e.meta.num_docs == 0).map
          SegmentEntry.segment_id).contains e.segment_id) := by
    show ((rs.committed.segment_entries.filter fun e => e.meta.num_docs == 0).foldl
        (fun r e => r.remove_segment e.segment_id) rs.committed).entries = _
    rw [foldl_remove_by_entry, SegmentRegister.entries_foldl_remove]
    rfl
  rw [hentries, List.filter_eq_nil_iff]
  intro e he hzero
  rcases List.mem_filter.mp he with ⟨hmem, hkeep⟩
  have hin : e.segment_id ∈ (rs.committed.entries.filter
      fun e => e.meta.num_docs == 0).map SegmentEntry.segment_id :=
    List.mem_map.mpr ⟨e, List.mem_filter.mpr ⟨hmem, hzero⟩, rfl⟩
  rw [Bool.not_eq_true'] at hkeep
  have hc : ((rs.committed.entries.filter fun e => e.meta.num_docs == 0).map
      SegmentEntry.segment_id).contains e.segment_id = true :=
    List.elem_iff.mpr hin
  rw [hkeep] at hc
  exact Bool.noConfusion hc

/-- **C5 (amended)**: when all of `before_ids` reside in one single tier
(that tier's `contains_all` holds and fails for the two others) and the
merged entry's id is not one of `before_ids`, `end_merge(before_ids,
after_entry)` returns exactly that tier's classification, and afterwards
the tier contains `after_entry` and none of `before_ids`. (When
`after_entry` reuses one of `before_ids`, the "none of before_ids" part
fails — see the counterexample.) -/
theorem end_merge_tier_preservation (rs : SegmentRegisters)
    (ids : List SegmentId) (after : SegmentEntry) (st : SegmentsStatus)
    (h1 : (tierOf rs st).contains_all ids = true)
    (h2 : ∀ st', st' ≠ st → (tierOf rs st').contains_all ids = false)
    (h3 : ids.contains after.segment_id = false) :
    ∃ rs', SegmentManager.end_merge rs ids after = .ok (st, rs') ∧
      after ∈ (tierOf rs' st).entries ∧
      ∀ id, ids.contains id = true → (tierOf rs' st).contains id = false := by
  have hstat : rs.segments_status ids = some st := by
    cases st with
    | uncommitted =>
      have h1' : rs.uncommitted.contains_all ids = true := h1
      simp [SegmentRegisters.segments_status, h1']
    | softCommitted =>
      have hu : rs.uncommitted.contains_all ids = false := h2 .uncommitted (by decide)
      have h1' : rs.soft_committed.contains_all ids = true := h1
      simp [SegmentRegisters.segments_status, hu, h1']
    | committed =>
      have hu : rs.uncommitted.contains_all ids = false := h2 .uncommitted (by decide)
      have hsoft : rs.soft_committed.contains_all ids = false :=
        h2 .softCommitted (by decide)
      have h1' : rs.committed.contains_all ids = true := h1
      simp [SegmentRegisters.segments_status, hu, hsoft, h1']
  cases st with
  | uncommitted =>
    refine ⟨{ rs with uncommitted := (ids.foldl (fun r id => r.remove_segment id)
        rs.uncommitted).add_segment_entry after }, ?_, ?_, ?_⟩
    · unfold SegmentManager.end_merge
      rw [hstat]
      rfl
    · exact SegmentRegister.mem_add_self _ _
    · intro id hid
      rw [← Bool.not_eq_true]
      intro hc
      rcases SegmentRegister.contains_add_iff.mp hc with hx | rfl
      · have hf := SegmentRegister.contains_foldl_remove_of_mem
          (r := rs.uncommitted) (List.mem_of_elem_eq_true hid)
        rw [hf] at hx
        exact Bool.noConfusion hx
      · rw [hid] at h3
        exact Bool.noConfusion h3
  | softCommitted =>
    refine ⟨{ rs with soft_committed := (ids.foldl (fun r id => r.remove_segment id)
        rs.soft_committed).add_segment_entry after }, ?_, ?_, ?_⟩
    · unfold SegmentManager.end_merge
      rw [hstat]
      rfl
    · exact SegmentRegister.mem_add_self _ _
    · intro id hid
      rw [← Bool.not_eq_true]
      intro hc
      rcases SegmentRegister.contains_add_iff.mp hc with hx | rfl
      · have hf := SegmentRegister.contains_foldl_remove_of_mem
          (r := rs.soft_committed) (List.mem_of_elem_eq_true hid)
        rw [hf] at hx
        exact Bool.noConfusion hx
      · rw [hid] at h3
        exact Bool.noConfusion h3
  | committed =>
    refine ⟨{ rs with committed := (ids.foldl (fun r id => r.remove_segment id)
        rs.committed).add_segment_entry after }, ?_, ?_, ?_⟩
    · unfold SegmentManager.end_merge
      rw [hstat]
      rfl
    · exact SegmentRegister.mem_add_self _ _
    · intro id hid
      rw [← Bool.not_eq_true]
      intro hc
      rcases SegmentRegister.contains_add_iff.mp hc with hx | rfl
      · have hf := SegmentRegister.contains_foldl_remove_of_mem
          (r := rs.committed) (List.mem_of_elem_eq_true hid)
        rw [hf] at hx
        exact Bool.noConfusion hx
      · rw [hid] at h3
        exact Bool.noConfusion h3

/-- **C5 witness**: merging the single uncommitted segment 0 into a fresh
segment 1 returns the uncommitted classification; afterwards the
uncommitted tier holds the merged entry and no longer holds segment 0. -/
theorem end_merge_tier_preservation_witness :
    (tierOf ⟨⟨[⟨⟨⟨0⟩, 3⟩, 0⟩]⟩, ⟨[]⟩, ⟨[]⟩⟩
        SegmentsStatus.uncommitted).contains_all [⟨0⟩] = true ∧
    (∃ rs', SegmentManager.end_merge ⟨⟨[⟨⟨⟨0⟩, 3⟩, 0⟩]⟩, ⟨[]⟩, ⟨[]⟩⟩ [⟨0⟩]
          ⟨⟨⟨1⟩, 5⟩, 0⟩ = .ok (SegmentsStatus.uncommitted, rs') ∧
      (⟨⟨⟨1⟩, 5⟩, 0⟩ : SegmentEntry) ∈
        (tierOf rs' SegmentsStatus.uncommitted).entries ∧
      ∀ id, List.contains [(⟨0⟩ : SegmentId)] id = true →
        (tierOf rs' SegmentsStatus.uncommitted).contains id = false) :=
  ⟨by decide, end_merge_tier_preservation _ _ _ _ (by decide) (by decide) (by decide)⟩

/-- **C5 counterexample**: when the merged entry reuses one of the
before-merge ids, the tier afterwards still contains that id, contradicting
the claim's "that tier contains none of before_ids": merging uncommitted
segment 0 into an entry that again carries id 0 succeeds, and id 0 is still
present in the uncommitted tier. -/
theorem end_merge_before_id_counterexample :
    SegmentManager.end_merge ⟨⟨[⟨⟨⟨0⟩, 1⟩, 0⟩]⟩, ⟨[]⟩, ⟨[]⟩⟩ [⟨0⟩]
        ⟨⟨⟨0⟩, 5⟩, 0⟩ =
      .ok (SegmentsStatus.uncommitted, ⟨⟨[⟨⟨⟨0⟩, 5⟩, 0⟩]⟩, ⟨[]⟩, ⟨[]⟩⟩) ∧
    SegmentRegister.contains ⟨[⟨⟨⟨0⟩, 5⟩, 0⟩]⟩ ⟨0⟩ = true :=
  ⟨rfl, rfl⟩

end Tantivy
